import Mathlib

/-!
Verification of the staff-application bot (`src/bot.py`) lifecycle core.

The SQLite-backed store (`save_app` / `fetch_app`), the review operations
(`ScoreModal.on_submit`, `DecisionModal.on_submit`, `StaffClaimView.pick`),
the `/apply` cooldown gate and the DM answer collector (`on_message`) are
shallowly embedded as pure Lean functions.  External effects (Discord sends,
message deletion, uuid/time generation) are passed in as explicit inputs.
-/

namespace GateKeeper

/-- SQL `COALESCE(a, b)`: the first non-null of the two operands. -/
def coalesce {α : Type} (a b : Option α) : Option α :=
  match a with
  | some x => some x
  | none => b

/-- Python truthiness of an optional string column (`if value:`):
`None` and the empty string are falsy. -/
def truthyStr : Option String → Bool
  | none => false
  | some s => s != ""

/-! ## Decimal (de)serialization of message-id lists

`save_app` stores `bot_message_ids` as `",".join(str(x) for x in ids)` and
`fetch_app` reads it back with `[int(x) for x in s.split(',') if x.strip()]`.
We model `str`/`int` on integers and `join`/`split`/`strip` on `List Char`.
-/

/-- Decimal digit characters of a natural number, as Python `str` renders it. -/
def natToChars (n : Nat) : List Char :=
  if n = 0 then ['0'] else ((Nat.digits 10 n).map Nat.digitChar).reverse

/-- Reads a (big-endian) decimal digit string back into a natural number. -/
def charsToNat (cs : List Char) : Nat :=
  cs.foldl (fun a c => a * 10 + (c.toNat - 48)) 0

/-- Python `str` on an `int` (possibly negative). -/
def intToChars (i : Int) : List Char :=
  if i < 0 then '-' :: natToChars i.natAbs else natToChars i.toNat

/-- Python `int` applied to a well-formed decimal string (total model). -/
def charsToInt (cs : List Char) : Int :=
  if cs.head? = some '-' then -(charsToNat cs.tail : Int) else (charsToNat cs : Int)

/-- Python `sep.join(pieces)` at the character-list level. -/
def pyJoin (sep : Char) : List (List Char) → List Char
  | [] => []
  | [x] => x
  | x :: y :: xs => x ++ sep :: pyJoin sep (y :: xs)

/-- Python `s.split(sep)` at the character-list level (`"".split(c) = [""]`). -/
def pySplit (sep : Char) : List Char → List (List Char)
  | [] => [[]]
  | c :: rest =>
    if c = sep then [] :: pySplit sep rest
    else
      match pySplit sep rest with
      | [] => [[c]]
      | p :: ps => (c :: p) :: ps

/-- Python `s.strip()` at the character-list level. -/
def pyStripL (cs : List Char) : List Char :=
  ((cs.dropWhile Char.isWhitespace).reverse.dropWhile Char.isWhitespace).reverse

/-- Python `s.strip()` on strings. -/
def pyStrip (s : String) : String := String.mk (pyStripL s.data)

/-- The text stored in the `bot_message_ids` column for a given id list. -/
def serializeIds (l : List Int) : String :=
  String.mk (pyJoin ',' (l.map intToChars))

/-- `fetch_app`'s decoding of the `bot_message_ids` column
(`None`/empty are falsy and give `[]`). -/
def deserializeIds (o : Option String) : List Int :=
  match o with
  | none => []
  | some s =>
    if s.data = [] then []
    else (pySplit ',' s.data).filterMap fun piece =>
      if pyStripL piece = [] then none else some (charsToInt piece)

/-- `cs.all Char.isDigit`. -/
def digitsOnly (cs : List Char) : Bool := cs.all Char.isDigit

/-- Model of Python `int(text)` on arbitrary text: strips whitespace, accepts an
optional sign followed by at least one decimal digit, otherwise raises
(`none`). -/
def pyParseInt (s : String) : Option Int :=
  match pyStripL s.data with
  | [] => none
  | '-' :: rest =>
    if !rest.isEmpty && digitsOnly rest then some (-(charsToNat rest : Int)) else none
  | '+' :: rest =>
    if !rest.isEmpty && digitsOnly rest then some ((charsToNat rest : Int)) else none
  | cs => if digitsOnly cs then some ((charsToNat cs : Int)) else none

/-! ## The applications table -/

/-- One row of the `applications` table (minus the primary key, which is the
association key).  `transcript` is always written from a Python `str`, so it is
modelled non-null; every other optional column is an `Option`. -/
structure AppRecord where
  user_id : String
  username : String
  started_at : Option String
  finished_at : Option String
  transcript : String
  bot_message_ids : Option String
  score : Option Int
  score_scale : Option Int
  decision : Option String
  decision_reason : Option String
  picker_id : Option String
  reviewer_id : Option String
deriving DecidableEq

/-- The dict returned by `fetch_app` (with `bot_message_ids` decoded). -/
structure FetchedApp where
  application_id : String
  user_id : String
  username : String
  started_at : Option String
  finished_at : Option String
  transcript : String
  bot_message_ids : List Int
  score : Option Int
  score_scale : Option Int
  decision : Option String
  decision_reason : Option String
  picker_id : Option String
  reviewer_id : Option String
deriving DecidableEq

/-- First-match association lookup (a SQL `SELECT ... WHERE pk = ?` /
Python dict read). -/
def alookup {α : Type} : List (String × α) → String → Option α
  | [], _ => none
  | (k', v) :: tl, k => if k' = k then some v else alookup tl k

/-- Python dict assignment `m[k] = v` (replace or append). -/
def aset {α : Type} : List (String × α) → String → α → List (String × α)
  | [], k, v => [(k, v)]
  | (k', v') :: tl, k, v => if k' = k then (k, v) :: tl else (k', v') :: aset tl k v

/-- Python `del m[k]` (removes every binding of `k`). -/
def aremove {α : Type} : List (String × α) → String → List (String × α)
  | [], _ => []
  | (k', v') :: tl, k => if k' = k then aremove tl k else (k', v') :: aremove tl k

/-- SQL `UPDATE ... WHERE pk = ?`: rewrites every row whose key matches. -/
def aupdate {α : Type} : List (String × α) → String → (α → α) → List (String × α)
  | [], _, _ => []
  | (k', v') :: tl, k, f =>
    if k' = k then (k', f v') :: aupdate tl k f else (k', v') :: aupdate tl k f

/-- The durable store: the `applications` table keyed by `application_id`. -/
abbrev AppDB := List (String × AppRecord)

/-- The `SET` clause of `save_app`'s `UPDATE`: `transcript` is overwritten
unconditionally, the listed columns via `COALESCE(new, old)`, and
`user_id`, `username`, `started_at` are not touched at all. -/
def updRec (old : AppRecord) (t : String) (botText : Option String)
    (fa : Option String) (sc ssc : Option Int) (d dr p rv : Option String) :
    AppRecord :=
  { old with
    transcript := t
    bot_message_ids := coalesce botText old.bot_message_ids
    finished_at := coalesce fa old.finished_at
    score := coalesce sc old.score
    score_scale := coalesce ssc old.score_scale
    decision := coalesce d old.decision
    decision_reason := coalesce dr old.decision_reason
    picker_id := coalesce p old.picker_id
    reviewer_id := coalesce rv old.reviewer_id }

/-- `save_app` (src/bot.py lines 83-98): serializes the id list, then either
`UPDATE`s the existing row or `INSERT`s a fresh one. -/
def save_app (db : AppDB) (app_id user_id username : String) (transcript : String)
    (bot_message_ids : Option (List Int)) (started_at finished_at : Option String)
    (score score_scale : Option Int)
    (decision decision_reason picker_id reviewer_id : Option String) : AppDB :=
  let botText := bot_message_ids.map serializeIds
  match alookup db app_id with
  | some _ =>
    aupdate db app_id fun old =>
      updRec old transcript botText finished_at score score_scale decision
        decision_reason picker_id reviewer_id
  | none =>
    db ++ [(app_id,
      { user_id := user_id
        username := username
        started_at := started_at
        finished_at := finished_at
        transcript := transcript
        bot_message_ids := botText
        score := score
        score_scale := score_scale
        decision := decision
        decision_reason := decision_reason
        picker_id := picker_id
        reviewer_id := reviewer_id })]

/-- The dict `fetch_app` builds from a row (src/bot.py lines 105-111). -/
def toFetched (app_id : String) (r : AppRecord) : FetchedApp :=
  { application_id := app_id
    user_id := r.user_id
    username := r.username
    started_at := r.started_at
    finished_at := r.finished_at
    transcript := r.transcript
    bot_message_ids := deserializeIds r.bot_message_ids
    score := r.score
    score_scale := r.score_scale
    decision := r.decision
    decision_reason := r.decision_reason
    picker_id := r.picker_id
    reviewer_id := r.reviewer_id }

/-- `fetch_app` (src/bot.py lines 100-111). -/
def fetch_app (db : AppDB) (app_id : String) : Option FetchedApp :=
  (alookup db app_id).map (toFetched app_id)

/-! ## Review-surface operations -/

/-- The acting staff member as the handlers see them: their id
(`str(interaction.user.id)`), whether they are a guild `Member`, and whether
they carry the configured reviewer role. -/
structure Actor where
  id : String
  isMember : Bool
  hasReviewerRole : Bool
deriving DecidableEq

/-- The distinct `interaction.response.send_message` texts of the review
handlers. -/
inductive ReviewMsg
  | notFound
  | claimedByOther
  | notAuthorized
  | badFormat
  | badScale
  | savedScore (score scale : Int)
  | scoreRequired
  | decisionRecorded (decision : String)
  | alreadyClaimed
  | picked
deriving DecidableEq

/-- A response to the acting staff member, with the `ephemeral` flag the code
passes to `send_message`. -/
structure Reply where
  msg : ReviewMsg
  ephemeral : Bool
deriving DecidableEq

/-- The guard `app['picker_id'] and str(interaction.user.id) != str(app['picker_id'])`. -/
def pickerBlocked (picker : Option String) (actorId : String) : Bool :=
  match picker with
  | none => false
  | some p => (p != "") && (actorId != p)

/-- The guard `REVIEWER_ROLE_ID and isinstance(user, Member)` plus the role-set
test; `REVIEWER_ROLE_ID` falls back to `0`, which is falsy. -/
def roleBlocked (roleId : Nat) (a : Actor) : Bool :=
  (roleId != 0) && a.isMember && !a.hasReviewerRole

/-- `ScoreModal.on_submit` (src/bot.py lines 177-201): fetch, picker
enforcement, role check when unclaimed, integer parsing, scale whitelist,
then `save_app` with the new score/scale and `reviewer_id = actor`. -/
def score_submit (roleId : Nat) (db : AppDB) (app_id : String) (a : Actor)
    (scaleStr scoreStr : String) : AppDB × Reply :=
  match fetch_app db app_id with
  | none => (db, ⟨ReviewMsg.notFound, true⟩)
  | some app =>
    if pickerBlocked app.picker_id a.id then (db, ⟨ReviewMsg.claimedByOther, true⟩)
    else if !truthyStr app.picker_id && roleBlocked roleId a then
      (db, ⟨ReviewMsg.notAuthorized, true⟩)
    else
      match pyParseInt scaleStr, pyParseInt scoreStr with
      | some scaleV, some scoreV =>
        if scaleV ∈ ([5, 10, 50, 100] : List Int) then
          (save_app db app_id app.user_id app.username app.transcript
              (some app.bot_message_ids) none none (some scoreV) (some scaleV)
              none none app.picker_id (some a.id),
            ⟨ReviewMsg.savedScore scoreV scaleV, true⟩)
        else (db, ⟨ReviewMsg.badScale, true⟩)
      | _, _ => (db, ⟨ReviewMsg.badFormat, true⟩)

/-- In-memory conversation state: one entry of the `ongoing` dict. -/
structure ConvState where
  app_id : String
  started : String
  q_index : Nat
  transcript : List String
  bot_message_ids : List Int
  last : Int
deriving DecidableEq

/-- The `ongoing` dict, keyed by `str(user.id)`. -/
abbrev Ongoing := List (String × ConvState)

/-- `DecisionModal.on_submit` (src/bot.py lines 233-304): fetch, picker
enforcement, score-required check, then a first `save_app` with the decision,
best-effort DM cleanup, a second `save_app` storing only the final result
message id when the DM send succeeds (`dmOk`), and removal of any residual
`ongoing` state for the applicant.  There is no reviewer-role check. -/
def decide_submit (db : AppDB) (og : Ongoing) (app_id decision reason : String)
    (a : Actor) (finalMsgId : Int) (dmOk : Bool) : AppDB × Ongoing × Reply :=
  match fetch_app db app_id with
  | none => (db, og, ⟨ReviewMsg.notFound, true⟩)
  | some app =>
    if pickerBlocked app.picker_id a.id then (db, og, ⟨ReviewMsg.claimedByOther, true⟩)
    else
      match app.score with
      | none => (db, og, ⟨ReviewMsg.scoreRequired, true⟩)
      | some _ =>
        let reasonS := pyStrip reason
        let db1 := save_app db app_id app.user_id app.username app.transcript
          (some app.bot_message_ids) none none none none (some decision)
          (some reasonS) app.picker_id (some a.id)
        let db2 :=
          if dmOk then
            save_app db1 app_id app.user_id app.username app.transcript
              (some [finalMsgId]) app.started_at app.finished_at app.score
              app.score_scale (some decision) (some reasonS) app.picker_id
              (some a.id)
          else db1
        (db2, aremove og app.user_id, ⟨ReviewMsg.decisionRecorded decision, true⟩)

/-- `StaffClaimView.pick` (src/bot.py lines 311-344): fetch, already-claimed
check on a truthy `picker_id`, role check, then `save_app` setting
`picker_id = actor` (and nothing else new). -/
def pick_submit (roleId : Nat) (db : AppDB) (app_id : String) (a : Actor) :
    AppDB × Reply :=
  match fetch_app db app_id with
  | none => (db, ⟨ReviewMsg.notFound, true⟩)
  | some app =>
    if truthyStr app.picker_id then (db, ⟨ReviewMsg.alreadyClaimed, true⟩)
    else if roleBlocked roleId a then (db, ⟨ReviewMsg.notAuthorized, true⟩)
    else
      (save_app db app_id app.user_id app.username app.transcript
          (some app.bot_message_ids) none none none none none none
          (some a.id) none,
        ⟨ReviewMsg.picked, true⟩)

/-! ## Conversation flow -/

/-- Outcome of the `/apply` command as the applicant sees it. -/
inductive ApplyReply
  | cooldownWait
  | dmFailed
  | startedOk (app_id : String)
deriving DecidableEq

/-- Where the DM sends of `/apply` first fail, if anywhere (the `try` block
sets `ongoing` before the first send, so each failure point leaves a
different state behind). -/
inductive ApplyEnv
  | noDm
  | welcomeFail
  | questionFail
  | ok
deriving DecidableEq

/-- `new_app_id` (src/bot.py lines 80-81): the UTC second timestamp and the
first six characters of a random uuid4 hex string, both supplied by the
environment. -/
def new_app_id (ts nonce : String) : String :=
  "app_" ++ ts ++ "_" ++ String.mk (nonce.data.take 6)

/-- The `/apply` command (src/bot.py lines 349-375): cooldown gate on the
`last` field of the applicant's `ongoing` entry (default `0`), then fresh
conversation state `{app_id, started, q_index 0, [], bot_message_ids, last}`
with the welcome and first-question message ids recorded as far as the sends
succeed. -/
def apply_cmd (cooldown : Int) (og : Ongoing) (uid : String) (now : Int)
    (ts nonce started : String) (welcomeId q1Id : Int) (env : ApplyEnv) :
    Ongoing × ApplyReply :=
  let last : Int := match alookup og uid with | some st => st.last | none => 0
  if now - last < cooldown then (og, ApplyReply.cooldownWait)
  else
    match env with
    | ApplyEnv.noDm => (og, ApplyReply.dmFailed)
    | ApplyEnv.welcomeFail =>
      (aset og uid ⟨new_app_id ts nonce, started, 0, [], [], now⟩,
        ApplyReply.dmFailed)
    | ApplyEnv.questionFail =>
      (aset og uid ⟨new_app_id ts nonce, started, 0, [], [welcomeId], now⟩,
        ApplyReply.dmFailed)
    | ApplyEnv.ok =>
      (aset og uid ⟨new_app_id ts nonce, started, 0, [], [welcomeId, q1Id], now⟩,
        ApplyReply.startedOk (new_app_id ts nonce))

/-- The DM branch of `on_message` (src/bot.py lines 457-527): ignore users with
no `ongoing` state; append the `(question, stripped answer)` pair, bump the
cursor and save the cumulative transcript with the current outbound-id list;
then either send the next question (its id `newMsgId` is appended to the
state) or finish: save with `finished_at`, send the summary (id `newMsgId`),
best-effort-delete the earlier messages and — whether or not that deletion
raises (`deletionFails`) — persist `[newMsgId]` as the only outbound id, and
drop the `ongoing` entry. -/
def on_message_dm (questions : List String) (db : AppDB) (og : Ongoing)
    (uid authorName content : String) (newMsgId : Int) (finishedTs : String)
    (deletionFails : Bool) : AppDB × Ongoing :=
  match alookup og uid with
  | none => (db, og)
  | some st =>
    if hq : st.q_index < questions.length then
      let entry := "Q: " ++ questions.get ⟨st.q_index, hq⟩ ++ "\nA: " ++
        pyStrip content ++ "\n"
      let transcript2 := st.transcript ++ [entry]
      let text2 := String.intercalate "\n" transcript2
      let db1 := save_app db st.app_id uid authorName text2
        (some st.bot_message_ids) (some st.started) none none none none none
        none none
      if st.q_index + 1 < questions.length then
        (db1, aset og uid
          { st with
            transcript := transcript2
            q_index := st.q_index + 1
            bot_message_ids := st.bot_message_ids ++ [newMsgId] })
      else
        let db2 := save_app db1 st.app_id uid authorName text2
          (some st.bot_message_ids) (some st.started) (some finishedTs) none
          none none none none none
        let db3 :=
          if deletionFails then
            save_app db2 st.app_id uid authorName text2 (some [newMsgId])
              (some st.started) (some finishedTs) none none none none none none
          else
            save_app db2 st.app_id uid authorName text2 (some [newMsgId])
              (some st.started) (some finishedTs) none none none none none none
        (db3, aremove og uid)
    else (db, og)

/-! ## Store-level predicates -/

/-- The ordering invariant of the claim surface: any record visible in the
store with a non-null decision also has a non-null score. -/
def scoreBeforeDecision (db : AppDB) : Prop :=
  ∀ id r, alookup db id = some r → r.decision ≠ none → r.score ≠ none

/-- The application `id` exists and its `picker_id` is truthy (claimed). -/
def pickerTruthy (db : AppDB) (id : String) : Bool :=
  match alookup db id with
  | some r => truthyStr r.picker_id
  | none => false

/-! ## Basic lemmas about the store primitives -/

theorem coalesce_some {α : Type} (x : α) (b : Option α) :
    coalesce (some x) b = some x := rfl

theorem coalesce_none {α : Type} (b : Option α) : coalesce none b = b := by
  cases b <;> rfl

theorem coalesce_ne_none {α : Type} (a b : Option α) (hb : b ≠ none) :
    coalesce a b ≠ none := by
  cases a with
  | some x => simp [coalesce]
  | none => simpa [coalesce] using hb

theorem coalesce_ne_none' {α : Type} (a b : Option α) (ha : a ≠ none) :
    coalesce a b ≠ none := by
  cases a with
  | some x => simp [coalesce]
  | none => exact absurd rfl ha

theorem alookup_aupdate {α : Type} (m : List (String × α)) (k : String)
    (f : α → α) (q : String) :
    alookup (aupdate m k f) q =
      if q = k then (alookup m k).map f else alookup m q := by
  induction m with
  | nil => simp [aupdate, alookup]
  | cons hd tl ih =>
    obtain ⟨k', v'⟩ := hd
    by_cases hk : k' = k
    · subst hk
      by_cases hq : k' = q
      · subst hq
        simp [aupdate, alookup]
      · simp [aupdate, alookup, hq, Ne.symm hq, ih]
    · by_cases hq : k' = q
      · subst hq
        simp [aupdate, alookup, hk]
      · simp [aupdate, alookup, hk, hq, ih]

theorem alookup_append_single {α : Type} (m : List (String × α)) (k : String)
    (v : α) (q : String) :
    alookup (m ++ [(k, v)]) q =
      match alookup m q with
      | some r => some r
      | none => if k = q then some v else none := by
  induction m with
  | nil => simp [alookup]
  | cons hd tl ih =>
    obtain ⟨k', v'⟩ := hd
    by_cases hq : k' = q
    · subst hq
      simp [alookup]
    · simp [alookup, hq, ih]

theorem alookup_aset {α : Type} (m : List (String × α)) (k : String) (v : α)
    (q : String) :
    alookup (aset m k v) q = if q = k then some v else alookup m q := by
  induction m with
  | nil =>
    by_cases hq : q = k
    · subst hq
      simp [aset, alookup]
    · simp [aset, alookup, hq, Ne.symm hq]
  | cons hd tl ih =>
    obtain ⟨k', v'⟩ := hd
    by_cases hk : k' = k
    · subst hk
      by_cases hq : q = k'
      · subst hq
        simp [aset, alookup]
      · simp [aset, alookup, hq, Ne.symm hq]
    · by_cases hq : k' = q
      · subst hq
        simp [aset, alookup, hk, Ne.symm hk]
      · simp [aset, alookup, hk, hq, ih]

theorem alookup_aremove {α : Type} (m : List (String × α)) (k q : String) :
    alookup (aremove m k) q = if q = k then none else alookup m q := by
  induction m with
  | nil => simp [aremove, alookup]
  | cons hd tl ih =>
    obtain ⟨k', v'⟩ := hd
    by_cases hk : k' = k
    · subst hk
      by_cases hq : q = k'
      · subst hq
        simp [aremove, alookup, ih]
      · simp [aremove, alookup, hq, Ne.symm hq, ih]
    · by_cases hq : k' = q
      · subst hq
        simp [aremove, alookup, hk, Ne.symm hk]
      · simp [aremove, alookup, hk, hq, ih]

/-- `save_app` on an existing id rewrites that row through the `SET` clause. -/
theorem lookup_save_update (db : AppDB) (app_id u n t : String)
    (ids : Option (List Int)) (sa fa : Option String) (sc ssc : Option Int)
    (d dr p rv : Option String) (old : AppRecord)
    (h : alookup db app_id = some old) :
    alookup (save_app db app_id u n t ids sa fa sc ssc d dr p rv) app_id =
      some (updRec old t (ids.map serializeIds) fa sc ssc d dr p rv) := by
  unfold save_app
  rw [h]
  simp [alookup_aupdate, h]

/-- `save_app` on an unseen id appends a fresh full row. -/
theorem lookup_save_insert (db : AppDB) (app_id u n t : String)
    (ids : Option (List Int)) (sa fa : Option String) (sc ssc : Option Int)
    (d dr p rv : Option String)
    (h : alookup db app_id = none) :
    alookup (save_app db app_id u n t ids sa fa sc ssc d dr p rv) app_id =
      some
        { user_id := u, username := n, started_at := sa, finished_at := fa,
          transcript := t, bot_message_ids := ids.map serializeIds, score := sc,
          score_scale := ssc, decision := d, decision_reason := dr,
          picker_id := p, reviewer_id := rv } := by
  unfold save_app
  rw [h, alookup_append_single, h]
  simp

/-- `save_app` leaves every other row untouched. -/
theorem lookup_save_ne (db : AppDB) (app_id u n t : String)
    (ids : Option (List Int)) (sa fa : Option String) (sc ssc : Option Int)
    (d dr p rv : Option String) (q : String) (hq : q ≠ app_id) :
    alookup (save_app db app_id u n t ids sa fa sc ssc d dr p rv) q =
      alookup db q := by
  unfold save_app
  cases h : alookup db app_id with
  | some old =>
    rw [alookup_aupdate]
    simp [hq]
  | none =>
    rw [alookup_append_single]
    cases hl : alookup db q with
    | some r => simp
    | none => simp [Ne.symm hq]

/-! ## Round-trip of the `bot_message_ids` column -/

theorem digitChar_toNat (d : Nat) (h : d < 10) : (Nat.digitChar d).toNat = 48 + d := by
  interval_cases d <;> decide

theorem digitChar_props (d : Nat) (h : d < 10) :
    (Nat.digitChar d).isWhitespace = false ∧ Nat.digitChar d ≠ ',' ∧
      Nat.digitChar d ≠ '-' := by
  interval_cases d <;> decide

theorem mem_natToChars (n : Nat) (c : Char) (hc : c ∈ natToChars n) :
    c.isWhitespace = false ∧ c ≠ ',' ∧ c ≠ '-' := by
  unfold natToChars at hc
  split at hc
  · simp only [List.mem_singleton] at hc
    subst hc
    decide
  · rw [List.mem_reverse, List.mem_map] at hc
    obtain ⟨d, hd, rfl⟩ := hc
    exact digitChar_props d (Nat.digits_lt_base (by norm_num) hd)

theorem natToChars_ne_nil (n : Nat) : natToChars n ≠ [] := by
  unfold natToChars
  split
  · simp
  · rename_i h
    simp only [ne_eq, List.reverse_eq_nil_iff, List.map_eq_nil_iff]
    exact Nat.digits_ne_nil_iff_ne_zero.mpr h

theorem foldl_digits (ds : List Nat) (hds : ∀ d ∈ ds, d < 10) (a : Nat) :
    ((ds.map Nat.digitChar).reverse).foldl (fun x c => x * 10 + (c.toNat - 48)) a =
      a * 10 ^ ds.length + Nat.ofDigits 10 ds := by
  induction ds generalizing a with
  | nil => simp [Nat.ofDigits]
  | cons d tl ih =>
    have hd : d < 10 := hds d (List.mem_cons_self d tl)
    have htl : ∀ x ∈ tl, x < 10 := fun x hx => hds x (List.mem_cons_of_mem d hx)
    simp only [List.map_cons, List.reverse_cons, List.foldl_append, List.foldl_cons,
      List.foldl_nil, ih htl a]
    rw [digitChar_toNat d hd]
    simp only [Nat.add_sub_cancel_left, Nat.ofDigits_cons, List.length_cons]
    ring

theorem charsToNat_natToChars (n : Nat) : charsToNat (natToChars n) = n := by
  unfold natToChars charsToNat
  split
  · rename_i h
    subst h
    decide
  · rw [foldl_digits (Nat.digits 10 n) (fun d hd => Nat.digits_lt_base (by norm_num) hd) 0]
    simp [Nat.ofDigits_digits]

theorem charsToInt_intToChars (i : Int) : charsToInt (intToChars i) = i := by
  unfold intToChars
  split
  · rename_i h
    have h1 : charsToInt ('-' :: natToChars i.natAbs) =
        -(charsToNat (natToChars i.natAbs) : Int) := by
      unfold charsToInt
      rw [if_pos (by simp)]
      rfl
    rw [h1, charsToNat_natToChars]
    omega
  · rename_i h
    have hne : (natToChars i.toNat).head? ≠ some '-' := by
      cases hn : natToChars i.toNat with
      | nil => exact absurd hn (natToChars_ne_nil _)
      | cons c cs =>
        have := mem_natToChars i.toNat c (by rw [hn]; exact List.mem_cons_self c cs)
        simp only [List.head?_cons, ne_eq, Option.some.injEq]
        exact this.2.2
    rw [charsToInt, if_neg hne, charsToNat_natToChars]
    omega

theorem mem_intToChars (i : Int) (c : Char) (hc : c ∈ intToChars i) :
    c.isWhitespace = false ∧ c ≠ ',' := by
  unfold intToChars at hc
  split at hc
  · rcases List.mem_cons.1 hc with rfl | hc
    · exact ⟨by decide, by decide⟩
    · exact ⟨(mem_natToChars _ c hc).1, (mem_natToChars _ c hc).2.1⟩
  · exact ⟨(mem_natToChars _ c hc).1, (mem_natToChars _ c hc).2.1⟩

theorem intToChars_ne_nil (i : Int) : intToChars i ≠ [] := by
  unfold intToChars
  split
  · simp
  · exact natToChars_ne_nil _

theorem pySplit_no_sep (sep : Char) (cs : List Char) (h : sep ∉ cs) :
    pySplit sep cs = [cs] := by
  induction cs with
  | nil => rfl
  | cons c tl ih =>
    have hc : ¬c = sep := fun hcs => h (hcs ▸ List.mem_cons_self c tl)
    have htl : sep ∉ tl := fun hm => h (List.mem_cons_of_mem c hm)
    simp [pySplit, hc, ih htl]

theorem pySplit_append (sep : Char) (p rest : List Char) (h : sep ∉ p) :
    pySplit sep (p ++ sep :: rest) = p :: pySplit sep rest := by
  induction p with
  | nil => simp [pySplit]
  | cons c tl ih =>
    have hc : ¬c = sep := fun hcs => h (hcs ▸ List.mem_cons_self c tl)
    have htl : sep ∉ tl := fun hm => h (List.mem_cons_of_mem c hm)
    simp [pySplit, hc, ih htl]

theorem pySplit_pyJoin (sep : Char) (ps : List (List Char)) (hne : ps ≠ [])
    (h : ∀ p ∈ ps, sep ∉ p) : pySplit sep (pyJoin sep ps) = ps := by
  induction ps with
  | nil => exact absurd rfl hne
  | cons x tl ih =>
    cases tl with
    | nil =>
      simp only [pyJoin]
      exact pySplit_no_sep sep x (h x (List.mem_cons_self x []))
    | cons y ys =>
      simp only [pyJoin]
      rw [pySplit_append sep x _ (h x (List.mem_cons_self x (y :: ys)))]
      rw [ih (by simp) (fun p hp => h p (List.mem_cons_of_mem x hp))]

theorem pyStripL_no_ws (cs : List Char) (h : ∀ c ∈ cs, c.isWhitespace = false) :
    pyStripL cs = cs := by
  unfold pyStripL
  have drop1 : ∀ (l : List Char), (∀ c ∈ l, c.isWhitespace = false) →
      l.dropWhile Char.isWhitespace = l := by
    intro l hl
    cases l with
    | nil => rfl
    | cons c tl => simp [List.dropWhile_cons, hl c (List.mem_cons_self c tl)]
  rw [drop1 cs h, drop1 cs.reverse (fun c hc => h c (List.mem_reverse.1 hc)),
    List.reverse_reverse]

theorem pyJoin_ne_nil (sep : Char) (x : List Char) (xs : List (List Char))
    (hx : x ≠ []) : pyJoin sep (x :: xs) ≠ [] := by
  cases xs with
  | nil => simpa [pyJoin] using hx
  | cons y ys => simp [pyJoin]

theorem filterMap_map_id {α β : Type} (l : List α) (g : α → β)
    (f : β → Option α) (h : ∀ x ∈ l, f (g x) = some x) :
    (l.map g).filterMap f = l := by
  induction l with
  | nil => rfl
  | cons x tl ih =>
    rw [List.map_cons, List.filterMap_cons, h x (List.mem_cons_self x tl),
      ih (fun y hy => h y (List.mem_cons_of_mem x hy))]

/-- Round trip: decoding the column text written for `l` returns `l`. -/
theorem deserializeIds_serializeIds (l : List Int) :
    deserializeIds (some (serializeIds l)) = l := by
  cases l with
  | nil => rfl
  | cons i tl =>
    unfold deserializeIds serializeIds
    have hjoin : pyJoin ',' ((i :: tl).map intToChars) ≠ [] := by
      simpa [List.map_cons] using
        pyJoin_ne_nil ',' (intToChars i) (tl.map intToChars) (intToChars_ne_nil i)
    simp only [String.data] at hjoin ⊢
    rw [if_neg hjoin]
    rw [pySplit_pyJoin ',' ((i :: tl).map intToChars) (by simp)
      (fun p hp => by
        rw [List.mem_map] at hp
        obtain ⟨j, _, rfl⟩ := hp
        exact fun hsep => absurd rfl ((mem_intToChars j ',' hsep).2))]
    refine filterMap_map_id (i :: tl) intToChars _ (fun x _ => ?_)
    rw [pyStripL_no_ws (intToChars x) (fun c hc => (mem_intToChars x c hc).1)]
    rw [if_neg (intToChars_ne_nil x), charsToInt_intToChars]

/-- Observable round trip via the store: the decoded list is the saved list. -/
theorem fetch_bot_ids_after_save (db : AppDB) (app_id u n t : String)
    (l : List Int) (sa fa : Option String) (sc ssc : Option Int)
    (d dr p rv : Option String) :
    (fetch_app (save_app db app_id u n t (some l) sa fa sc ssc d dr p rv)
        app_id).map FetchedApp.bot_message_ids = some l := by
  cases h : alookup db app_id with
  | some old =>
    unfold fetch_app
    rw [lookup_save_update db app_id u n t (some l) sa fa sc ssc d dr p rv old h]
    simp [toFetched, updRec, coalesce, deserializeIds_serializeIds]
  | none =>
    unfold fetch_app
    rw [lookup_save_insert db app_id u n t (some l) sa fa sc ssc d dr p rv h]
    simp [toFetched, deserializeIds_serializeIds]

/-! ## Guard and invariant helper lemmas -/

theorem pickerBlocked_of_untruthy (p : Option String) (aid : String)
    (h : truthyStr p = false) : pickerBlocked p aid = false := by
  cases p with
  | none => rfl
  | some s =>
    simp only [truthyStr] at h
    simp [pickerBlocked, h]

theorem fetch_app_some (db : AppDB) (app_id : String) (app : FetchedApp)
    (h : fetch_app db app_id = some app) :
    ∃ r, alookup db app_id = some r ∧ app = toFetched app_id r := by
  unfold fetch_app at h
  cases hl : alookup db app_id with
  | none => rw [hl] at h; exact absurd h (by simp)
  | some r =>
    rw [hl] at h
    simp only [Option.map_some', Option.some.injEq] at h
    exact ⟨r, rfl, h.symm⟩

/-- The `SET` clause keeps the ordering invariant as long as the caller either
does not write a decision, writes a score alongside, or writes into a row that
already has a score. -/
theorem scoreBeforeDecision_save (db : AppDB) (app_id u n t : String)
    (ids : Option (List Int)) (sa fa : Option String) (sc ssc : Option Int)
    (d dr p rv : Option String)
    (h : scoreBeforeDecision db)
    (hok : d = none ∨ sc ≠ none ∨
      ∃ old, alookup db app_id = some old ∧ old.score ≠ none) :
    scoreBeforeDecision (save_app db app_id u n t ids sa fa sc ssc d dr p rv) := by
  intro q r hq hd
  by_cases hqi : q = app_id
  · subst hqi
    cases hl : alookup db q with
    | none =>
      rw [lookup_save_insert db q u n t ids sa fa sc ssc d dr p rv hl] at hq
      simp only [Option.some.injEq] at hq
      subst hq
      simp only at hd ⊢
      rcases hok with rfl | hsc | ⟨old, hold, _⟩
      · exact absurd rfl hd
      · exact hsc
      · rw [hl] at hold; exact absurd hold (by simp)
    | some old =>
      rw [lookup_save_update db q u n t ids sa fa sc ssc d dr p rv old hl] at hq
      simp only [Option.some.injEq] at hq
      subst hq
      simp only [updRec] at hd ⊢
      rcases hok with rfl | hsc | ⟨old', hold', hsc'⟩
      · rw [coalesce_none] at hd
        exact coalesce_ne_none sc old.score (h q old hl hd)
      · exact coalesce_ne_none' sc old.score hsc
      · rw [hl] at hold'
        simp only [Option.some.injEq] at hold'
        subst hold'
        exact coalesce_ne_none sc _ hsc'
  · rw [lookup_save_ne db app_id u n t ids sa fa sc ssc d dr p rv q hqi] at hq
    exact h q r hq hd

theorem scoreBeforeDecision_score_submit (roleId : Nat) (db : AppDB)
    (app_id : String) (a : Actor) (s1 s2 : String)
    (h : scoreBeforeDecision db) :
    scoreBeforeDecision (score_submit roleId db app_id a s1 s2).1 := by
  unfold score_submit
  cases hf : fetch_app db app_id with
  | none => exact h
  | some app =>
    by_cases hpb : pickerBlocked app.picker_id a.id = true
    · simp only [hpb, if_true]
      exact h
    · simp only [eq_false_of_ne_true hpb, if_false]
      by_cases hrb : (!truthyStr app.picker_id && roleBlocked roleId a) = true
      · simp only [hrb, if_true]
        exact h
      · simp only [eq_false_of_ne_true hrb, if_false]
        cases hp1 : pyParseInt s1 with
        | none => exact h
        | some scaleV =>
          cases hp2 : pyParseInt s2 with
          | none => exact h
          | some scoreV =>
            by_cases hsc : scaleV ∈ ([5, 10, 50, 100] : List Int)
            · simp only [if_pos hsc]
              exact scoreBeforeDecision_save db app_id _ _ _ _ _ _ _ _ _ _ _ _ h
                (Or.inr (Or.inl (by simp)))
            · simp only [if_neg hsc]
              exact h

theorem scoreBeforeDecision_decide_submit (db : AppDB) (og : Ongoing)
    (app_id decision reason : String) (a : Actor) (finalMsgId : Int)
    (dmOk : Bool) (h : scoreBeforeDecision db) :
    scoreBeforeDecision (decide_submit db og app_id decision reason a finalMsgId dmOk).1 := by
  unfold decide_submit
  cases hf : fetch_app db app_id with
  | none => exact h
  | some app =>
    obtain ⟨r0, hl, happ⟩ := fetch_app_some db app_id app hf
    by_cases hpb : pickerBlocked app.picker_id a.id = true
    · simp only [hpb, if_true]
      exact h
    · simp only [eq_false_of_ne_true hpb, if_false]
      cases hs : app.score with
      | none => exact h
      | some s =>
        have hr0score : r0.score = some s := by
          rw [happ] at hs
          simpa [toFetched] using hs
        simp only
        have h1 : scoreBeforeDecision
            (save_app db app_id app.user_id app.username app.transcript
              (some app.bot_message_ids) none none none none (some decision)
              (some (pyStrip reason)) app.picker_id (some a.id)) :=
          scoreBeforeDecision_save db app_id _ _ _ _ _ _ _ _ _ _ _ _ h
            (Or.inr (Or.inr ⟨r0, hl, by rw [hr0score]; simp⟩))
        cases dmOk with
        | false => simpa using h1
        | true =>
          simp only [if_true]
          exact scoreBeforeDecision_save _ app_id _ _ _ _ _ _ _ _ _ _ _ _ h1
            (Or.inr (Or.inl (by simp)))

theorem scoreBeforeDecision_pick_submit (roleId : Nat) (db : AppDB)
    (app_id : String) (a : Actor) (h : scoreBeforeDecision db) :
    scoreBeforeDecision (pick_submit roleId db app_id a).1 := by
  unfold pick_submit
  cases hf : fetch_app db app_id with
  | none => exact h
  | some app =>
    by_cases ht : truthyStr app.picker_id = true
    · simp only [ht, if_true]
      exact h
    · simp only [eq_false_of_ne_true ht, if_false]
      by_cases hrb : roleBlocked roleId a = true
      · simp only [hrb, if_true]
        exact h
      · simp only [eq_false_of_ne_true hrb, if_false]
        exact scoreBeforeDecision_save db app_id _ _ _ _ _ _ _ _ _ _ _ _ h
          (Or.inl rfl)

theorem scoreBeforeDecision_on_message (questions : List String) (db : AppDB)
    (og : Ongoing) (uid an content : String) (newMsgId : Int) (fts : String)
    (delFail : Bool) (h : scoreBeforeDecision db) :
    scoreBeforeDecision
      (on_message_dm questions db og uid an content newMsgId fts delFail).1 := by
  unfold on_message_dm
  cases hst : alookup og uid with
  | none => exact h
  | some st =>
    by_cases hq : st.q_index < questions.length
    · simp only [dif_pos hq]
      have h1 := scoreBeforeDecision_save db st.app_id uid an
        (String.intercalate "\n" (st.transcript ++
          ["Q: " ++ questions.get ⟨st.q_index, hq⟩ ++ "\nA: " ++
            pyStrip content ++ "\n"]))
        (some st.bot_message_ids) (some st.started) none none none none none
        none none h (Or.inl rfl)
      by_cases hq2 : st.q_index + 1 < questions.length
      · simp only [if_pos hq2]
        exact h1
      · simp only [if_neg hq2, ite_self]
        exact scoreBeforeDecision_save _ st.app_id uid an _
          (some [newMsgId]) (some st.started) (some fts) none none none
          none none none
          (scoreBeforeDecision_save _ st.app_id uid an _
            (some st.bot_message_ids) (some st.started) (some fts) none none
            none none none none h1 (Or.inl rfl))
          (Or.inl rfl)
    · simp only [dif_neg hq]
      exact h

theorem pickerTruthy_some (db : AppDB) (q : String)
    (h : pickerTruthy db q = true) :
    ∃ r, alookup db q = some r ∧ truthyStr r.picker_id = true := by
  unfold pickerTruthy at h
  cases hl : alookup db q with
  | none => rw [hl] at h; exact absurd h (by simp)
  | some r => rw [hl] at h; exact ⟨r, rfl, h⟩

theorem pickerTruthy_save (db : AppDB) (app_id u n t : String)
    (ids : Option (List Int)) (sa fa : Option String) (sc ssc : Option Int)
    (d dr p rv : Option String) (q : String)
    (h : pickerTruthy db q = true)
    (hp : ∀ old, q = app_id → alookup db app_id = some old →
      truthyStr (coalesce p old.picker_id) = true) :
    pickerTruthy (save_app db app_id u n t ids sa fa sc ssc d dr p rv) q = true := by
  obtain ⟨r, hl, ht⟩ := pickerTruthy_some db q h
  by_cases hqi : q = app_id
  · subst hqi
    unfold pickerTruthy
    rw [lookup_save_update db q u n t ids sa fa sc ssc d dr p rv r hl]
    simp only [updRec]
    exact hp r rfl hl
  · unfold pickerTruthy
    rw [lookup_save_ne db app_id u n t ids sa fa sc ssc d dr p rv q hqi, hl]
    exact ht

theorem pickerTruthy_save_none (db : AppDB) (app_id u n t : String)
    (ids : Option (List Int)) (sa fa : Option String) (sc ssc : Option Int)
    (d dr rv : Option String) (q : String)
    (h : pickerTruthy db q = true) :
    pickerTruthy (save_app db app_id u n t ids sa fa sc ssc d dr none rv) q = true := by
  refine pickerTruthy_save db app_id u n t ids sa fa sc ssc d dr none rv q h ?_
  intro old hq hlold
  subst hq
  obtain ⟨r, hl, ht⟩ := pickerTruthy_some db q h
  rw [hl] at hlold
  simp only [Option.some.injEq] at hlold
  subst hlold
  rw [coalesce_none]
  exact ht

theorem pickerTruthy_score_submit (roleId : Nat) (db : AppDB)
    (app_id : String) (a : Actor) (s1 s2 : String) (q : String)
    (h : pickerTruthy db q = true) :
    pickerTruthy (score_submit roleId db app_id a s1 s2).1 q = true := by
  unfold score_submit
  cases hf : fetch_app db app_id with
  | none => exact h
  | some app =>
    obtain ⟨r0, hl, happ⟩ := fetch_app_some db app_id app hf
    have hpapp : app.picker_id = r0.picker_id := by rw [happ]; rfl
    by_cases hpb : pickerBlocked app.picker_id a.id = true
    · simp only [if_pos hpb]; exact h
    · simp only [if_neg hpb]
      by_cases hrb : (!truthyStr app.picker_id && roleBlocked roleId a) = true
      · simp only [if_pos hrb]; exact h
      · simp only [if_neg hrb]
        cases hp1 : pyParseInt s1 with
        | none => exact h
        | some scaleV =>
          cases hp2 : pyParseInt s2 with
          | none => exact h
          | some scoreV =>
            by_cases hsc : scaleV ∈ ([5, 10, 50, 100] : List Int)
            · simp only [if_pos hsc]
              by_cases hqi : q = app_id
              · subst hqi
                have ht : truthyStr r0.picker_id = true := by
                  unfold pickerTruthy at h
                  rw [hl] at h
                  exact h
                unfold pickerTruthy
                rw [lookup_save_update db q _ _ _ _ _ _ _ _ _ _ _ _ r0 hl]
                simp only [updRec]
                cases hpk : r0.picker_id with
                | none => rw [hpk] at ht; exact absurd ht (by simp [truthyStr])
                | some s =>
                  rw [hpapp, hpk, coalesce_some]
                  rw [hpk] at ht
                  exact ht
              · unfold pickerTruthy
                rw [lookup_save_ne db app_id _ _ _ _ _ _ _ _ _ _ _ _ q hqi]
                exact h
            · simp only [if_neg hsc]; exact h

theorem pickerTruthy_decide_submit (db : AppDB) (og : Ongoing)
    (app_id decision reason : String) (a : Actor) (finalMsgId : Int)
    (dmOk : Bool) (q : String) (h : pickerTruthy db q = true) :
    pickerTruthy (decide_submit db og app_id decision reason a finalMsgId dmOk).1 q = true := by
  unfold decide_submit
  cases hf : fetch_app db app_id with
  | none => exact h
  | some app =>
    obtain ⟨r0, hl, happ⟩ := fetch_app_some db app_id app hf
    have hpapp : app.picker_id = r0.picker_id := by rw [happ]; rfl
    by_cases hpb : pickerBlocked app.picker_id a.id = true
    · simp only [if_pos hpb]; exact h
    · simp only [if_neg hpb]
      cases hs : app.score with
      | none => exact h
      | some s =>
        simp only
        by_cases hqi : q = app_id
        · subst hqi
          have ht : truthyStr r0.picker_id = true := by
            unfold pickerTruthy at h
            rw [hl] at h
            exact h
          cases hpk : r0.picker_id with
          | none => rw [hpk] at ht; exact absurd ht (by simp [truthyStr])
          | some s' =>
            rw [hpk] at ht
            have h1 := lookup_save_update db q app.user_id app.username
              app.transcript (some app.bot_message_ids) none none none none
              (some decision) (some (pyStrip reason)) app.picker_id
              (some a.id) r0 hl
            cases dmOk with
            | false =>
              rw [if_neg Bool.false_ne_true]
              unfold pickerTruthy
              rw [h1]
              simp only [updRec, hpapp, hpk, coalesce_some]
              exact ht
            | true =>
              rw [if_pos rfl]
              unfold pickerTruthy
              rw [lookup_save_update _ q app.user_id app.username
                app.transcript (some [finalMsgId]) app.started_at
                app.finished_at (some s) app.score_scale (some decision)
                (some (pyStrip reason)) app.picker_id (some a.id) _ h1]
              simp only [updRec, hpapp, hpk, coalesce_some]
              exact ht
        · cases dmOk with
          | false =>
            rw [if_neg Bool.false_ne_true]
            unfold pickerTruthy
            rw [lookup_save_ne db app_id _ _ _ _ _ _ _ _ _ _ _ _ q hqi]
            exact h
          | true =>
            rw [if_pos rfl]
            unfold pickerTruthy
            rw [lookup_save_ne _ app_id _ _ _ _ _ _ _ _ _ _ _ _ q hqi,
              lookup_save_ne db app_id _ _ _ _ _ _ _ _ _ _ _ _ q hqi]
            exact h

theorem pickerTruthy_pick_submit (roleId : Nat) (db : AppDB)
    (app_id : String) (a : Actor) (q : String)
    (h : pickerTruthy db q = true) :
    pickerTruthy (pick_submit roleId db app_id a).1 q = true := by
  unfold pick_submit
  cases hf : fetch_app db app_id with
  | none => exact h
  | some app =>
    obtain ⟨r0, hl, happ⟩ := fetch_app_some db app_id app hf
    have hpapp : app.picker_id = r0.picker_id := by rw [happ]; rfl
    by_cases ht : truthyStr app.picker_id = true
    · simp only [if_pos ht]; exact h
    · simp only [if_neg ht]
      by_cases hrb : roleBlocked roleId a = true
      · simp only [if_pos hrb]; exact h
      · simp only [if_neg hrb]
        by_cases hqi : q = app_id
        · subst hqi
          have ht' : truthyStr r0.picker_id = true := by
            unfold pickerTruthy at h
            rw [hl] at h
            exact h
          rw [hpapp] at ht
          exact absurd ht' ht
        · unfold pickerTruthy
          rw [lookup_save_ne db app_id _ _ _ _ _ _ _ _ _ _ _ _ q hqi]
          exact h

theorem pickerTruthy_on_message (questions : List String) (db : AppDB)
    (og : Ongoing) (uid an content : String) (newMsgId : Int) (fts : String)
    (delFail : Bool) (q : String) (h : pickerTruthy db q = true) :
    pickerTruthy
      (on_message_dm questions db og uid an content newMsgId fts delFail).1 q = true := by
  unfold on_message_dm
  cases hst : alookup og uid with
  | none => exact h
  | some st =>
    by_cases hq : st.q_index < questions.length
    · simp only [dif_pos hq]
      have h1 := pickerTruthy_save_none db st.app_id uid an
        (String.intercalate "\n" (st.transcript ++
          ["Q: " ++ questions.get ⟨st.q_index, hq⟩ ++ "\nA: " ++
            pyStrip content ++ "\n"]))
        (some st.bot_message_ids) (some st.started) none none none none none
        none q h
      by_cases hq2 : st.q_index + 1 < questions.length
      · simp only [if_pos hq2]
        exact h1
      · simp only [if_neg hq2, ite_self]
        exact pickerTruthy_save_none _ st.app_id uid an _
          (some [newMsgId]) (some st.started) (some fts) none none none
          none none q
          (pickerTruthy_save_none _ st.app_id uid an _
            (some st.bot_message_ids) (some st.started) (some fts) none none
            none none none q h1)
    · simp only [dif_neg hq]
      exact h

/-! ## Concrete sample data for witnesses -/

/-- A concrete row used to instantiate witnesses. -/
def sampleRec (score : Option Int) (decision picker : Option String) : AppRecord :=
  { user_id := "u9"
    username := "alice"
    started_at := some "S"
    finished_at := none
    transcript := "T"
    bot_message_ids := none
    score := score
    score_scale := none
    decision := decision
    decision_reason := none
    picker_id := picker
    reviewer_id := none }

/-- On the success path, `DecisionModal.on_submit` stores the submitted
decision (overwriting any previous one via `COALESCE(new, old)` with a
non-null `new`), removes the applicant's residual conversation state and
reports `decisionRecorded`. -/
theorem decide_success_state (db : AppDB) (og : Ongoing)
    (app_id d reason : String) (a : Actor) (finalMsgId : Int) (dmOk : Bool)
    (app : FetchedApp) (s : Int) (r0 : AppRecord)
    (hl : alookup db app_id = some r0)
    (happ : app = toFetched app_id r0)
    (hpb : pickerBlocked app.picker_id a.id = false)
    (hs : app.score = some s) :
    (alookup (decide_submit db og app_id d reason a finalMsgId dmOk).1 app_id).map
      AppRecord.decision = some (some d) ∧
    (decide_submit db og app_id d reason a finalMsgId dmOk).2 =
      (aremove og app.user_id, ⟨ReviewMsg.decisionRecorded d, true⟩) := by
  have hfetch : fetch_app db app_id = some app := by
    unfold fetch_app
    rw [hl, happ]
    rfl
  unfold decide_submit
  cases hf2 : fetch_app db app_id with
  | none => rw [hfetch] at hf2; exact absurd hf2 (by simp)
  | some app2 =>
    rw [hfetch] at hf2
    simp only [Option.some.injEq] at hf2
    subst hf2
    simp only [if_neg (show ¬pickerBlocked app.picker_id a.id = true by
      rw [hpb]; exact Bool.false_ne_true), hs]
    constructor
    · cases dmOk with
      | false =>
        rw [if_neg Bool.false_ne_true,
          lookup_save_update db app_id _ _ _ _ _ _ _ _ _ _ _ _ r0 hl]
        simp [updRec, coalesce]
      | true =>
        rw [if_pos rfl,
          lookup_save_update _ app_id _ _ _ _ _ _ _ _ _ _ _ _ _
            (lookup_save_update db app_id app.user_id app.username
              app.transcript (some app.bot_message_ids) none none none none
              (some d) (some (pyStrip reason)) app.picker_id (some a.id) r0 hl)]
        simp [updRec, coalesce]
    · trivial

/-! ## Claim theorems -/

/-- C10: for every application id and every list of integer message ids
(including the empty list), fetching the record immediately after saving it
with that list returns a list equal to the one saved. -/
theorem outbound_ids_roundtrip (db : AppDB) (app_id u n t : String)
    (l : List Int) (sa fa : Option String) (sc ssc : Option Int)
    (d dr p rv : Option String) :
    (fetch_app (save_app db app_id u n t (some l) sa fa sc ssc d dr p rv)
        app_id).map FetchedApp.bot_message_ids = some l :=
  fetch_bot_ids_after_save db app_id u n t l sa fa sc ssc d dr p rv

/-- C1: submitting the decision modal for an application whose score is null
fails with the score-required error and changes neither the store nor the
conversation map; moreover every decide call preserves the invariant that a
stored non-null decision is accompanied by a non-null score. -/
theorem decide_requires_score (db : AppDB) (og : Ongoing)
    (app_id decision reason : String) (a : Actor) (finalMsgId : Int)
    (dmOk : Bool) (app : FetchedApp)
    (hfetch : fetch_app db app_id = some app)
    (hpick : pickerBlocked app.picker_id a.id = false)
    (hscore : app.score = none) :
    decide_submit db og app_id decision reason a finalMsgId dmOk =
      (db, og, ⟨ReviewMsg.scoreRequired, true⟩) ∧
    (∀ db2 og2 id2 d2 r2 a2 f2 ok2,
      scoreBeforeDecision db2 →
      scoreBeforeDecision (decide_submit db2 og2 id2 d2 r2 a2 f2 ok2).1) ∧
    (∀ roleId2 db2 id2 a2 s1 s2,
      scoreBeforeDecision db2 →
      scoreBeforeDecision (score_submit roleId2 db2 id2 a2 s1 s2).1) ∧
    (∀ roleId2 db2 id2 a2,
      scoreBeforeDecision db2 →
      scoreBeforeDecision (pick_submit roleId2 db2 id2 a2).1) ∧
    (∀ qs db2 og2 uid2 an2 c2 m2 f2 df2,
      scoreBeforeDecision db2 →
      scoreBeforeDecision (on_message_dm qs db2 og2 uid2 an2 c2 m2 f2 df2).1) := by
  refine ⟨?_, ?_, ?_, ?_, ?_⟩
  · unfold decide_submit
    cases hf2 : fetch_app db app_id with
    | none => rw [hfetch] at hf2; exact absurd hf2 (by simp)
    | some app2 =>
      rw [hfetch] at hf2
      simp only [Option.some.injEq] at hf2
      subst hf2
      simp only [if_neg (show ¬pickerBlocked app.picker_id a.id = true by
        rw [hpick]; exact Bool.false_ne_true), hscore]
  · exact fun db2 og2 id2 d2 r2 a2 f2 ok2 h =>
      scoreBeforeDecision_decide_submit db2 og2 id2 d2 r2 a2 f2 ok2 h
  · exact fun roleId2 db2 id2 a2 s1 s2 h =>
      scoreBeforeDecision_score_submit roleId2 db2 id2 a2 s1 s2 h
  · exact fun roleId2 db2 id2 a2 h =>
      scoreBeforeDecision_pick_submit roleId2 db2 id2 a2 h
  · exact fun qs db2 og2 uid2 an2 c2 m2 f2 df2 h =>
      scoreBeforeDecision_on_message qs db2 og2 uid2 an2 c2 m2 f2 df2 h

/-- Witness for C1 at a concrete unscored application. -/
theorem decide_requires_score_witness :
    decide_submit [("a1", sampleRec none none none)] [] "a1" "Approved" "why"
        ⟨"s1", true, true⟩ 9 true =
      ([("a1", sampleRec none none none)], [], ⟨ReviewMsg.scoreRequired, true⟩) :=
  (decide_requires_score [("a1", sampleRec none none none)] [] "a1" "Approved"
    "why" ⟨"s1", true, true⟩ 9 true (toFetched "a1" (sampleRec none none none))
    rfl rfl rfl).1

/-- C5: on a claimed application, a score or decide submission by any actor
other than the picker is rejected with the claimed-by-another message,
privately (ephemeral), and mutates nothing. -/
theorem claimed_blocks_other_reviewers (roleId : Nat) (db : AppDB)
    (og : Ongoing) (app_id s1 s2 decision reason : String) (a : Actor)
    (finalMsgId : Int) (dmOk : Bool) (app : FetchedApp) (p : String)
    (hfetch : fetch_app db app_id = some app)
    (hp : app.picker_id = some p) (hpe : p ≠ "") (hne : a.id ≠ p) :
    score_submit roleId db app_id a s1 s2 =
      (db, ⟨ReviewMsg.claimedByOther, true⟩) ∧
    decide_submit db og app_id decision reason a finalMsgId dmOk =
      (db, og, ⟨ReviewMsg.claimedByOther, true⟩) := by
  have hpb : pickerBlocked app.picker_id a.id = true := by
    rw [hp]
    simp [pickerBlocked, hpe, hne]
  constructor
  · unfold score_submit
    cases hf2 : fetch_app db app_id with
    | none => rw [hfetch] at hf2; exact absurd hf2 (by simp)
    | some app2 =>
      rw [hfetch] at hf2
      simp only [Option.some.injEq] at hf2
      subst hf2
      simp only [if_pos hpb]
  · unfold decide_submit
    cases hf2 : fetch_app db app_id with
    | none => rw [hfetch] at hf2; exact absurd hf2 (by simp)
    | some app2 =>
      rw [hfetch] at hf2
      simp only [Option.some.injEq] at hf2
      subst hf2
      simp only [if_pos hpb]

/-- Witness for C5: a non-picker actor is blocked on a claimed application. -/
theorem claimed_blocks_other_reviewers_witness :
    score_submit 5 [("a1", sampleRec (some 8) none (some "p1"))] "a1"
        ⟨"s2", true, true⟩ "10" "7" =
      ([("a1", sampleRec (some 8) none (some "p1"))],
        ⟨ReviewMsg.claimedByOther, true⟩) ∧
    decide_submit [("a1", sampleRec (some 8) none (some "p1"))] [] "a1"
        "Approved" "ok" ⟨"s2", true, true⟩ 9 true =
      ([("a1", sampleRec (some 8) none (some "p1"))], [],
        ⟨ReviewMsg.claimedByOther, true⟩) :=
  claimed_blocks_other_reviewers 5 [("a1", sampleRec (some 8) none (some "p1"))]
    [] "a1" "10" "7" "Approved" "ok" ⟨"s2", true, true⟩ 9 true
    (toFetched "a1" (sampleRec (some 8) none (some "p1"))) "p1" rfl rfl
    (by decide) (by decide)

/-- C7: in the score modal (for an actor that passes the picker and role
guards), a non-integer scale or score fails with the invalid-format error, an
integer scale outside {5,10,50,100} fails with the invalid-scale error, and
otherwise — with no constraint on the score value, zero and values above the
scale included — score, scale and reviewer are overwritten with the new
values. -/
theorem score_validation (roleId : Nat) (db : AppDB) (app_id : String)
    (a : Actor) (scaleS scoreS : String) (app : FetchedApp)
    (hfetch : fetch_app db app_id = some app)
    (hpb : pickerBlocked app.picker_id a.id = false)
    (hrb : (!truthyStr app.picker_id && roleBlocked roleId a) = false) :
    ((pyParseInt scaleS = none ∨ pyParseInt scoreS = none) →
      score_submit roleId db app_id a scaleS scoreS =
        (db, ⟨ReviewMsg.badFormat, true⟩)) ∧
    (∀ sv cv, pyParseInt scaleS = some sv → pyParseInt scoreS = some cv →
      sv ∉ ([5, 10, 50, 100] : List Int) →
      score_submit roleId db app_id a scaleS scoreS =
        (db, ⟨ReviewMsg.badScale, true⟩)) ∧
    (∀ sv cv, pyParseInt scaleS = some sv → pyParseInt scoreS = some cv →
      sv ∈ ([5, 10, 50, 100] : List Int) →
      ((alookup (score_submit roleId db app_id a scaleS scoreS).1 app_id).map
          AppRecord.score = some (some cv) ∧
        (alookup (score_submit roleId db app_id a scaleS scoreS).1 app_id).map
          AppRecord.score_scale = some (some sv) ∧
        (alookup (score_submit roleId db app_id a scaleS scoreS).1 app_id).map
          AppRecord.reviewer_id = some (some a.id) ∧
        (score_submit roleId db app_id a scaleS scoreS).2 =
          ⟨ReviewMsg.savedScore cv sv, true⟩)) := by
  obtain ⟨r0, hl, happ⟩ := fetch_app_some db app_id app hfetch
  have hred : ∀ (X : AppDB × Reply),
      (match pyParseInt scaleS, pyParseInt scoreS with
        | some scaleV, some scoreV =>
          if scaleV ∈ ([5, 10, 50, 100] : List Int) then
            (save_app db app_id app.user_id app.username app.transcript
              (some app.bot_message_ids) none none (some scoreV) (some scaleV)
              none none app.picker_id (some a.id),
              ⟨ReviewMsg.savedScore scoreV scaleV, true⟩)
          else (db, ⟨ReviewMsg.badScale, true⟩)
        | _, _ => (db, ⟨ReviewMsg.badFormat, true⟩)) = X →
      score_submit roleId db app_id a scaleS scoreS = X := by
    intro X hX
    unfold score_submit
    cases hf2 : fetch_app db app_id with
    | none => rw [hfetch] at hf2; exact absurd hf2 (by simp)
    | some app2 =>
      rw [hfetch] at hf2
      simp only [Option.some.injEq] at hf2
      subst hf2
      simp only [if_neg (show ¬pickerBlocked app.picker_id a.id = true by
          rw [hpb]; exact Bool.false_ne_true),
        if_neg (show ¬(!truthyStr app.picker_id && roleBlocked roleId a) = true by
          rw [hrb]; exact Bool.false_ne_true)]
      exact hX
  refine ⟨?_, ?_, ?_⟩
  · intro hbad
    apply hred
    rcases hbad with h1 | h2
    · rw [h1]
    · rw [h2]
      cases pyParseInt scaleS <;> rfl
  · intro sv cv h1 h2 hnot
    apply hred
    rw [h1, h2]
    simp only [if_neg hnot]
  · intro sv cv h1 h2 hin
    have hstep := hred (save_app db app_id app.user_id app.username
      app.transcript (some app.bot_message_ids) none none (some cv) (some sv)
      none none app.picker_id (some a.id),
      ⟨ReviewMsg.savedScore cv sv, true⟩)
      (by rw [h1, h2]; simp only [if_pos hin])
    rw [hstep]
    rw [lookup_save_update db app_id _ _ _ _ _ _ _ _ _ _ _ _ r0 hl]
    simp [updRec, coalesce]

/-- Witness for C7: scale 7 is rejected as invalid scale, "x" as invalid
format, and a 0/10 submission overwrites the stored score. -/
theorem score_validation_witness :
    score_submit 5 [("a1", sampleRec (some 8) none none)] "a1"
        ⟨"s1", true, true⟩ "7" "1" =
      ([("a1", sampleRec (some 8) none none)], ⟨ReviewMsg.badScale, true⟩) ∧
    score_submit 5 [("a1", sampleRec (some 8) none none)] "a1"
        ⟨"s1", true, true⟩ "x" "1" =
      ([("a1", sampleRec (some 8) none none)], ⟨ReviewMsg.badFormat, true⟩) ∧
    (alookup (score_submit 5 [("a1", sampleRec (some 8) none none)] "a1"
        ⟨"s1", true, true⟩ "10" "0").1 "a1").map AppRecord.score =
      some (some 0) := by
  refine ⟨?_, ?_, ?_⟩
  · exact (score_validation 5 [("a1", sampleRec (some 8) none none)] "a1"
      ⟨"s1", true, true⟩ "7" "1"
      (toFetched "a1" (sampleRec (some 8) none none)) rfl rfl rfl).2.1 7 1
      (by decide) (by decide) (by decide)
  · exact (score_validation 5 [("a1", sampleRec (some 8) none none)] "a1"
      ⟨"s1", true, true⟩ "x" "1"
      (toFetched "a1" (sampleRec (some 8) none none)) rfl rfl rfl).1
      (Or.inl (by decide))
  · exact ((score_validation 5 [("a1", sampleRec (some 8) none none)] "a1"
      ⟨"s1", true, true⟩ "10" "0"
      (toFetched "a1" (sampleRec (some 8) none none)) rfl rfl rfl).2.2 10 0
      (by decide) (by decide) (by decide)).1

/-- C9: the decision modal performs no reviewer-role check: with a reviewer
role configured, an unclaimed scored application is decidable by a member
without the role (and the operation records the decision); no decide outcome
is ever the not-authorized error — while score and claim by the same actor
on the same application are rejected as unauthorized. -/
theorem decide_skips_role_check (roleId : Nat) (db : AppDB) (og : Ongoing)
    (app_id d reason : String) (a : Actor) (finalMsgId : Int) (dmOk : Bool)
    (app : FetchedApp) (s : Int)
    (hfetch : fetch_app db app_id = some app)
    (hpt : truthyStr app.picker_id = false)
    (hs : app.score = some s)
    (hrole : roleId ≠ 0) (hmem : a.isMember = true)
    (hnr : a.hasReviewerRole = false) :
    ((decide_submit db og app_id d reason a finalMsgId dmOk).2.2 =
      ⟨ReviewMsg.decisionRecorded d, true⟩) ∧
    ((alookup (decide_submit db og app_id d reason a finalMsgId dmOk).1
        app_id).map AppRecord.decision = some (some d)) ∧
    (∀ db2 og2 id2 d2 r2 a2 f2 ok2,
      (decide_submit db2 og2 id2 d2 r2 a2 f2 ok2).2.2.msg ≠
        ReviewMsg.notAuthorized) ∧
    (∀ sS cS, score_submit roleId db app_id a sS cS =
      (db, ⟨ReviewMsg.notAuthorized, true⟩)) ∧
    (pick_submit roleId db app_id a = (db, ⟨ReviewMsg.notAuthorized, true⟩)) := by
  obtain ⟨r0, hl, happ⟩ := fetch_app_some db app_id app hfetch
  have hpb : pickerBlocked app.picker_id a.id = false :=
    pickerBlocked_of_untruthy app.picker_id a.id hpt
  have hrblk : roleBlocked roleId a = true := by
    simp [roleBlocked, hmem, hnr]
    simpa using hrole
  have hmain := decide_success_state db og app_id d reason a finalMsgId dmOk
    app s r0 hl happ hpb hs
  refine ⟨?_, hmain.1, ?_, ?_, ?_⟩
  · have h2 := congrArg Prod.snd hmain.2
    simpa using h2
  · intro db2 og2 id2 d2 r2 a2 f2 ok2
    unfold decide_submit
    cases hf2 : fetch_app db2 id2 with
    | none => simp
    | some app2 =>
      by_cases hpb2 : pickerBlocked app2.picker_id a2.id = true
      · simp only [if_pos hpb2]
        simp
      · simp only [if_neg hpb2]
        cases app2.score with
        | none => simp
        | some s2 => simp
  · intro sS cS
    unfold score_submit
    cases hf2 : fetch_app db app_id with
    | none => rw [hfetch] at hf2; exact absurd hf2 (by simp)
    | some app2 =>
      rw [hfetch] at hf2
      simp only [Option.some.injEq] at hf2
      subst hf2
      simp only [if_neg (show ¬pickerBlocked app.picker_id a.id = true by
        rw [hpb]; exact Bool.false_ne_true),
        if_pos (show (!truthyStr app.picker_id && roleBlocked roleId a) = true by
          rw [hpt, hrblk]; rfl)]
  · unfold pick_submit
    cases hf2 : fetch_app db app_id with
    | none => rw [hfetch] at hf2; exact absurd hf2 (by simp)
    | some app2 =>
      rw [hfetch] at hf2
      simp only [Option.some.injEq] at hf2
      subst hf2
      simp only [if_neg (show ¬truthyStr app.picker_id = true by
        rw [hpt]; exact Bool.false_ne_true), if_pos hrblk]

/-- Witness for C9 at a concrete unclaimed scored application and a
role-less member actor, with a configured reviewer role. -/
theorem decide_skips_role_check_witness :
    ((decide_submit [("a1", sampleRec (some 8) none none)] [] "a1" "Approved"
        "fit" ⟨"s1", true, false⟩ 9 true).2.2 =
      ⟨ReviewMsg.decisionRecorded "Approved", true⟩) ∧
    (score_submit 77 [("a1", sampleRec (some 8) none none)] "a1"
        ⟨"s1", true, false⟩ "10" "7" =
      ([("a1", sampleRec (some 8) none none)],
        ⟨ReviewMsg.notAuthorized, true⟩)) ∧
    (pick_submit 77 [("a1", sampleRec (some 8) none none)] "a1"
        ⟨"s1", true, false⟩ =
      ([("a1", sampleRec (some 8) none none)],
        ⟨ReviewMsg.notAuthorized, true⟩)) := by
  have h := decide_skips_role_check 77 [("a1", sampleRec (some 8) none none)]
    [] "a1" "Approved" "fit" ⟨"s1", true, false⟩ 9 true
    (toFetched "a1" (sampleRec (some 8) none none)) 8 rfl rfl rfl
    (by decide) rfl rfl
  exact ⟨h.1, h.2.2.2.1 "10" "7", h.2.2.2.2⟩

/-- C2 fails on the code: a second decide with a different value overwrites a
terminal decision — an application decided Approved is re-decided Denied. -/
theorem decision_overwrite_cex :
    (alookup [("a1", sampleRec (some 8) (some "Approved") none)] "a1").map
      AppRecord.decision = some (some "Approved") ∧
    (alookup (decide_submit [("a1", sampleRec (some 8) (some "Approved") none)]
        [] "a1" "Denied" "changed" ⟨"s2", true, true⟩ 99 true).1 "a1").map
      AppRecord.decision = some (some "Denied") ∧
    (decide_submit [("a1", sampleRec (some 8) (some "Approved") none)] [] "a1"
        "Denied" "changed" ⟨"s2", true, true⟩ 99 true).2.2 =
      ⟨ReviewMsg.decisionRecorded "Denied", true⟩ := by
  refine ⟨rfl, ?_, ?_⟩ <;> decide

/-- C2 amended: a stored decision is last-write-wins — every successful decide
(re)sets it to the submitted value, with no terminal lock; once non-null it
can never return to null, but its value can change. -/
theorem decision_last_write_wins (db : AppDB) (og : Ongoing)
    (app_id d reason : String) (a : Actor) (finalMsgId : Int) (dmOk : Bool)
    (app : FetchedApp) (s : Int) (r0 : AppRecord)
    (hl : alookup db app_id = some r0)
    (happ : app = toFetched app_id r0)
    (hpb : pickerBlocked app.picker_id a.id = false)
    (hs : app.score = some s) :
    ((alookup (decide_submit db og app_id d reason a finalMsgId dmOk).1
        app_id).map AppRecord.decision = some (some d)) ∧
    (∀ (db2 : AppDB) (id2 u2 n2 t2 : String) (ids2 : Option (List Int))
      (sa2 fa2 : Option String) (sc2 ssc2 : Option Int)
      (d2 dr2 p2 rv2 : Option String) (old : AppRecord),
      alookup db2 id2 = some old → old.decision ≠ none →
      (alookup (save_app db2 id2 u2 n2 t2 ids2 sa2 fa2 sc2 ssc2 d2 dr2 p2 rv2)
          id2).map AppRecord.decision ≠ some none) := by
  constructor
  · exact (decide_success_state db og app_id d reason a finalMsgId dmOk app s
      r0 hl happ hpb hs).1
  · intro db2 id2 u2 n2 t2 ids2 sa2 fa2 sc2 ssc2 d2 dr2 p2 rv2 old hold hd
    rw [lookup_save_update db2 id2 u2 n2 t2 ids2 sa2 fa2 sc2 ssc2 d2 dr2 p2 rv2
      old hold]
    simp only [updRec, Option.map_some', ne_eq, Option.some.injEq]
    exact coalesce_ne_none d2 old.decision hd

/-- Witness for C2's amended claim: deciding Denied over a stored Approved
yields Denied. -/
theorem decision_last_write_wins_witness :
    (alookup (decide_submit [("a1", sampleRec (some 8) (some "Approved") none)]
        [] "a1" "Denied" "why" ⟨"s2", true, true⟩ 99 false).1 "a1").map
      AppRecord.decision = some (some "Denied") :=
  (decision_last_write_wins [("a1", sampleRec (some 8) (some "Approved") none)]
    [] "a1" "Denied" "why" ⟨"s2", true, true⟩ 99 false
    (toFetched "a1" (sampleRec (some 8) (some "Approved") none)) 8
    (sampleRec (some 8) (some "Approved") none) rfl rfl rfl rfl).1

/-- The Pick button rejects any claim attempt once the picker field is truthy. -/
theorem pick_already_claimed (roleId : Nat) (db : AppDB) (app_id : String)
    (a : Actor) (app : FetchedApp)
    (hf : fetch_app db app_id = some app)
    (ht : truthyStr app.picker_id = true) :
    pick_submit roleId db app_id a = (db, ⟨ReviewMsg.alreadyClaimed, true⟩) := by
  unfold pick_submit
  cases hf2 : fetch_app db app_id with
  | none => rw [hf] at hf2; exact absurd hf2 (by simp)
  | some app2 =>
    rw [hf] at hf2
    simp only [Option.some.injEq] at hf2
    subst hf2
    simp only [if_pos ht]

/-- C4: the Pick button fails with already-claimed whenever the picker field is
already (truthily) set, leaving the store unchanged; otherwise (actor
authorized) it sets the picker to the acting staff member, after which a pick
by any actor fails; and a truthily-set picker survives every modelled
operation, so the failure persists. -/
theorem claim_exclusive (roleId : Nat) (db : AppDB) (app_id : String)
    (a : Actor) (app : FetchedApp)
    (hfetch : fetch_app db app_id = some app) :
    (truthyStr app.picker_id = true →
      pick_submit roleId db app_id a = (db, ⟨ReviewMsg.alreadyClaimed, true⟩)) ∧
    (truthyStr app.picker_id = false → roleBlocked roleId a = false →
      (alookup (pick_submit roleId db app_id a).1 app_id).map
        AppRecord.picker_id = some (some a.id) ∧
      (a.id ≠ "" → ∀ (a2 : Actor) (roleId2 : Nat),
        pick_submit roleId2 (pick_submit roleId db app_id a).1 app_id a2 =
          ((pick_submit roleId db app_id a).1,
            ⟨ReviewMsg.alreadyClaimed, true⟩))) ∧
    (∀ (db2 : AppDB) (q : String), pickerTruthy db2 q = true →
      (∀ roleId2 id2 a2 s1 s2,
        pickerTruthy (score_submit roleId2 db2 id2 a2 s1 s2).1 q = true) ∧
      (∀ og2 id2 d2 r2 a2 f2 ok2,
        pickerTruthy (decide_submit db2 og2 id2 d2 r2 a2 f2 ok2).1 q = true) ∧
      (∀ roleId2 id2 a2,
        pickerTruthy (pick_submit roleId2 db2 id2 a2).1 q = true) ∧
      (∀ qs og2 uid2 an2 c2 m2 f2 df2,
        pickerTruthy (on_message_dm qs db2 og2 uid2 an2 c2 m2 f2 df2).1 q =
          true)) := by
  obtain ⟨r0, hl, happ⟩ := fetch_app_some db app_id app hfetch
  refine ⟨?_, ?_, ?_⟩
  · intro ht
    exact pick_already_claimed roleId db app_id a app hfetch ht
  · intro ht hrb
    have hstep : pick_submit roleId db app_id a =
        (save_app db app_id app.user_id app.username app.transcript
          (some app.bot_message_ids) none none none none none none
          (some a.id) none, ⟨ReviewMsg.picked, true⟩) := by
      unfold pick_submit
      cases hf2 : fetch_app db app_id with
      | none => rw [hfetch] at hf2; exact absurd hf2 (by simp)
      | some app2 =>
        rw [hfetch] at hf2
        simp only [Option.some.injEq] at hf2
        subst hf2
        simp only [if_neg (show ¬truthyStr app.picker_id = true by
          rw [ht]; exact Bool.false_ne_true),
          if_neg (show ¬roleBlocked roleId a = true by
            rw [hrb]; exact Bool.false_ne_true)]
    have hlook : alookup (pick_submit roleId db app_id a).1 app_id =
        some (updRec r0 app.transcript
          (some (serializeIds app.bot_message_ids)) none none none none none
          (some a.id) none) := by
      rw [hstep]
      exact lookup_save_update db app_id _ _ _ _ _ _ _ _ _ _ _ _ r0 hl
    constructor
    · rw [hlook]
      simp [updRec, coalesce]
    · intro hane a2 roleId2
      have hfetch2 : fetch_app (pick_submit roleId db app_id a).1 app_id =
          some (toFetched app_id (updRec r0 app.transcript
            (some (serializeIds app.bot_message_ids)) none none none none none
            (some a.id) none)) := by
        unfold fetch_app
        rw [hlook]
        rfl
      refine pick_already_claimed roleId2 _ app_id a2 _ hfetch2 ?_
      rw [show (toFetched app_id (updRec r0 app.transcript
        (some (serializeIds app.bot_message_ids)) none none none none none
        (some a.id) none)).picker_id = some a.id from rfl]
      simp [truthyStr, hane]
  · intro db2 q h
    exact ⟨fun roleId2 id2 a2 s1 s2 =>
        pickerTruthy_score_submit roleId2 db2 id2 a2 s1 s2 q h,
      fun og2 id2 d2 r2 a2 f2 ok2 =>
        pickerTruthy_decide_submit db2 og2 id2 d2 r2 a2 f2 ok2 q h,
      fun roleId2 id2 a2 => pickerTruthy_pick_submit roleId2 db2 id2 a2 q h,
      fun qs og2 uid2 an2 c2 m2 f2 df2 =>
        pickerTruthy_on_message qs db2 og2 uid2 an2 c2 m2 f2 df2 q h⟩

/-- Witness for C4: claiming an unclaimed application succeeds and a second
claim by a different actor fails; a pre-claimed application rejects picks. -/
theorem claim_exclusive_witness :
    ((alookup (pick_submit 0 [("a1", sampleRec none none none)] "a1"
        ⟨"s1", true, true⟩).1 "a1").map AppRecord.picker_id =
      some (some "s1")) ∧
    (pick_submit 0 (pick_submit 0 [("a1", sampleRec none none none)] "a1"
        ⟨"s1", true, true⟩).1 "a1" ⟨"s2", true, true⟩ =
      ((pick_submit 0 [("a1", sampleRec none none none)] "a1"
        ⟨"s1", true, true⟩).1, ⟨ReviewMsg.alreadyClaimed, true⟩)) ∧
    (pick_submit 0 [("a2", sampleRec none none (some "p1"))] "a2"
        ⟨"s1", true, true⟩ =
      ([("a2", sampleRec none none (some "p1"))],
        ⟨ReviewMsg.alreadyClaimed, true⟩)) := by
  have h1 := (claim_exclusive 0 [("a1", sampleRec none none none)] "a1"
    ⟨"s1", true, true⟩ (toFetched "a1" (sampleRec none none none)) rfl).2.1
    rfl rfl
  have h2 := (claim_exclusive 0 [("a2", sampleRec none none (some "p1"))] "a2"
    ⟨"s1", true, true⟩ (toFetched "a2" (sampleRec none none (some "p1")))
    rfl).1 rfl
  exact ⟨h1.1, h1.2 (by decide) ⟨"s2", true, true⟩ 0, h2⟩

/-- C6: when the final question is answered, the persisted outbound-message-id
list for the application is exactly the singleton of the freshly sent summary
message id — none of the earlier prompt ids survive — and this holds whether
or not deleting the earlier messages fails; the conversation state is
dropped. -/
theorem completion_outbound_singleton (questions : List String) (db : AppDB)
    (og : Ongoing) (uid an content : String) (mId : Int) (fts : String)
    (delFail : Bool) (st : ConvState)
    (hst : alookup og uid = some st)
    (hlast : st.q_index + 1 = questions.length)
    (hfresh : mId ∉ st.bot_message_ids) :
    ((fetch_app (on_message_dm questions db og uid an content mId fts
        delFail).1 st.app_id).map FetchedApp.bot_message_ids = some [mId]) ∧
    (∀ m ∈ st.bot_message_ids, m ∉ ([mId] : List Int)) ∧
    (alookup (on_message_dm questions db og uid an content mId fts
        delFail).2 uid = none) := by
  have hq : st.q_index < questions.length := by omega
  have hq2 : ¬st.q_index + 1 < questions.length := by omega
  have hred : on_message_dm questions db og uid an content mId fts delFail =
      (save_app
        (save_app
          (save_app db st.app_id uid an
            (String.intercalate "\n" (st.transcript ++
              ["Q: " ++ questions.get ⟨st.q_index, hq⟩ ++ "\nA: " ++
                pyStrip content ++ "\n"]))
            (some st.bot_message_ids) (some st.started) none none none none
            none none none)
          st.app_id uid an
          (String.intercalate "\n" (st.transcript ++
            ["Q: " ++ questions.get ⟨st.q_index, hq⟩ ++ "\nA: " ++
              pyStrip content ++ "\n"]))
          (some st.bot_message_ids) (some st.started) (some fts) none none
          none none none none)
        st.app_id uid an
        (String.intercalate "\n" (st.transcript ++
          ["Q: " ++ questions.get ⟨st.q_index, hq⟩ ++ "\nA: " ++
            pyStrip content ++ "\n"]))
        (some [mId]) (some st.started) (some fts) none none none none none
        none, aremove og uid) := by
    unfold on_message_dm
    cases hst2 : alookup og uid with
    | none => rw [hst] at hst2; exact absurd hst2 (by simp)
    | some st2 =>
      rw [hst] at hst2
      simp only [Option.some.injEq] at hst2
      subst hst2
      simp only [dif_pos hq, if_neg hq2, ite_self]
  refine ⟨?_, ?_, ?_⟩
  · rw [hred]
    exact fetch_bot_ids_after_save _ st.app_id uid an _ [mId] (some st.started)
      (some fts) none none none none none none
  · intro m hm
    simp only [List.mem_singleton]
    intro he
    exact hfresh (he ▸ hm)
  · rw [hred]
    show alookup (aremove og uid) uid = none
    rw [alookup_aremove]
    simp

/-- Witness for C6 on a one-question conversation with two earlier prompt ids
and summary id 12, for both deletion outcomes. -/
theorem completion_outbound_singleton_witness :
    ((fetch_app (on_message_dm ["Q1"] [] [("u", ⟨"a1", "s0", 0, [], [10, 11], 5⟩)]
        "u" "alice" "hello" 12 "f0" false).1 "a1").map
      FetchedApp.bot_message_ids = some [12]) ∧
    ((fetch_app (on_message_dm ["Q1"] [] [("u", ⟨"a1", "s0", 0, [], [10, 11], 5⟩)]
        "u" "alice" "hello" 12 "f0" true).1 "a1").map
      FetchedApp.bot_message_ids = some [12]) ∧
    (alookup (on_message_dm ["Q1"] [] [("u", ⟨"a1", "s0", 0, [], [10, 11], 5⟩)]
        "u" "alice" "hello" 12 "f0" false).2 "u" = none) := by
  have h1 := completion_outbound_singleton ["Q1"] []
    [("u", ⟨"a1", "s0", 0, [], [10, 11], 5⟩)] "u" "alice" "hello" 12 "f0"
    false ⟨"a1", "s0", 0, [], [10, 11], 5⟩ rfl rfl (by decide)
  have h2 := completion_outbound_singleton ["Q1"] []
    [("u", ⟨"a1", "s0", 0, [], [10, 11], 5⟩)] "u" "alice" "hello" 12 "f0"
    true ⟨"a1", "s0", 0, [], [10, 11], 5⟩ rfl rfl (by decide)
  exact ⟨h1.1, h2.1, h1.2.2⟩

/-- C3 fails on the code: completing the conversation deletes the `ongoing`
record that carries the cooldown timestamp, so a start one second after a
prior start is accepted; and with an identical environment-supplied
(timestamp, nonce) pair, the newly issued id equals the previously issued
one. -/
theorem apply_cooldown_cex :
    ((apply_cmd 300 [] "u" 1000 "20260101000000" "aaaaaa" "s0" 1 2
        ApplyEnv.ok).2 =
      ApplyReply.startedOk (new_app_id "20260101000000" "aaaaaa")) ∧
    ((on_message_dm ["Q1"] []
        (apply_cmd 300 [] "u" 1000 "20260101000000" "aaaaaa" "s0" 1 2
          ApplyEnv.ok).1
        "u" "alice" "hi" 3 "f0" false).2 = []) ∧
    ((apply_cmd 300
        (on_message_dm ["Q1"] []
          (apply_cmd 300 [] "u" 1000 "20260101000000" "aaaaaa" "s0" 1 2
            ApplyEnv.ok).1
          "u" "alice" "hi" 3 "f0" false).2
        "u" 1001 "20260101000000" "aaaaaa" "s1" 4 5 ApplyEnv.ok).2 =
      ApplyReply.startedOk (new_app_id "20260101000000" "aaaaaa")) ∧
    ((1001 : Int) - 1000 < 300) := by
  refine ⟨?_, ?_, ?_, ?_⟩ <;> decide

/-- C3 amended: a start is rejected (with the wait message, creating nothing)
iff an `ongoing` record for the applicant exists and its `last` timestamp is
within the cooldown window — completing the conversation removes that record;
an accepted start (with DMs deliverable) installs fresh conversation state
whose id is `app_<timestamp>_<nonce[:6]>`, distinct from any other issued id
whose (timestamp, nonce-prefix) components differ. -/
theorem apply_cooldown_spec (cooldown : Int) (og : Ongoing) (uid : String)
    (now : Int) (ts nonce started : String) (wId qId : Int) (env : ApplyEnv) :
    (∀ st, alookup og uid = some st → now - st.last < cooldown →
      apply_cmd cooldown og uid now ts nonce started wId qId env =
        (og, ApplyReply.cooldownWait)) ∧
    (alookup og uid = none → cooldown ≤ now →
      apply_cmd cooldown og uid now ts nonce started wId qId ApplyEnv.ok =
        (aset og uid ⟨new_app_id ts nonce, started, 0, [], [wId, qId], now⟩,
          ApplyReply.startedOk (new_app_id ts nonce))) ∧
    (∀ st, alookup og uid = some st → cooldown ≤ now - st.last →
      apply_cmd cooldown og uid now ts nonce started wId qId ApplyEnv.ok =
        (aset og uid ⟨new_app_id ts nonce, started, 0, [], [wId, qId], now⟩,
          ApplyReply.startedOk (new_app_id ts nonce))) ∧
    (∀ ts2 nonce2, ts.length = ts2.length →
      (ts ≠ ts2 ∨ nonce.data.take 6 ≠ nonce2.data.take 6) →
      new_app_id ts nonce ≠ new_app_id ts2 nonce2) := by
  refine ⟨?_, ?_, ?_, ?_⟩
  · intro st hst hlt
    unfold apply_cmd
    rw [hst]
    simp only [if_pos hlt]
  · intro hnone hge
    unfold apply_cmd
    rw [hnone]
    simp only [if_neg (show ¬now - 0 < cooldown by omega)]
  · intro st hst hge
    unfold apply_cmd
    rw [hst]
    simp only [if_neg (show ¬now - st.last < cooldown by omega)]
  · intro ts2 nonce2 hlen hne heq
    have hdata : "app_".data ++ (ts.data ++ ("_".data ++ nonce.data.take 6)) =
        "app_".data ++ (ts2.data ++ ("_".data ++ nonce2.data.take 6)) := by
      have h0 := congrArg String.data heq
      unfold new_app_id at h0
      simpa [String.data_append, List.append_assoc] using h0
    have h1 := List.append_cancel_left hdata
    obtain ⟨hts, hrest⟩ := List.append_inj h1 (by
      have : ts.length = ts.data.length := rfl
      have : ts2.length = ts2.data.length := rfl
      omega)
    have h3 := List.append_cancel_left hrest
    rcases hne with hn | hn
    · refine hn ?_
      cases ts
      cases ts2
      exact congrArg String.mk hts
    · exact hn h3

/-- Witness for C3's amended claim: an in-window start is rejected, an
out-of-window (or fresh) start succeeds, and ids with different nonce
prefixes differ. -/
theorem apply_cooldown_spec_witness :
    (apply_cmd 300 [("u", ⟨"a0", "s0", 0, [], [], 1000⟩)] "u" 1100
        "20260101000000" "aaaaaa" "s1" 1 2 ApplyEnv.ok =
      ([("u", ⟨"a0", "s0", 0, [], [], 1000⟩)], ApplyReply.cooldownWait)) ∧
    (apply_cmd 300 [] "u" 400 "20260101000000" "aaaaaa" "s1" 1 2 ApplyEnv.ok =
      (aset [] "u" ⟨new_app_id "20260101000000" "aaaaaa", "s1", 0, [], [1, 2],
        400⟩, ApplyReply.startedOk (new_app_id "20260101000000" "aaaaaa"))) ∧
    (new_app_id "20260101000000" "aaaaaa" ≠
      new_app_id "20260101000000" "bbbbbb") := by
  have h := apply_cooldown_spec 300 [("u", ⟨"a0", "s0", 0, [], [], 1000⟩)] "u"
    1100 "20260101000000" "aaaaaa" "s1" 1 2 ApplyEnv.ok
  have h2 := apply_cooldown_spec 300 [] "u" 400 "20260101000000" "aaaaaa" "s1"
    1 2 ApplyEnv.ok
  exact ⟨h.1 ⟨"a0", "s0", 0, [], [], 1000⟩ rfl (by decide),
    h2.2.1 rfl (by decide),
    h2.2.2.2 "20260101000000" "bbbbbb" rfl (Or.inr (by decide))⟩

/-- C8 fails on the code: on an existing id the `UPDATE` clause never touches
`started_at` (nor `user_id`/`username`), so a provided non-null `started_at`
is silently ignored rather than updating the field. -/
theorem upsert_started_at_cex :
    (alookup (save_app
        (save_app [] "a1" "u9" "alice" "T" none (some "S1") none none none
          none none none none)
        "a1" "u9" "alice" "T" none (some "S2") none none none none none none
        none) "a1").map AppRecord.started_at = some (some "S1") ∧
    ("S1" : String) ≠ "S2" := by
  refine ⟨?_, ?_⟩ <;> decide

/-- C8 amended: on an existing id, `save_app` replaces `transcript`
unconditionally and `outboundMessageIds` whenever provided (even with the
empty list — full replacement, not a merge), updates each of `finished_at`,
`score`, `score_scale`, `decision`, `decision_reason`, `picker_id`,
`reviewer_id` exactly when provided non-null, never modifies `user_id`,
`username` or `started_at`, and leaves every other row unchanged; an unseen
id inserts a full new row. -/
theorem upsert_characterization (db : AppDB) (app_id u n t : String)
    (ids : Option (List Int)) (sa fa : Option String) (sc ssc : Option Int)
    (d dr p rv : Option String) :
    (∀ old, alookup db app_id = some old →
      ∃ newr, alookup (save_app db app_id u n t ids sa fa sc ssc d dr p rv)
          app_id = some newr ∧
        newr.transcript = t ∧
        newr.bot_message_ids = coalesce (ids.map serializeIds)
          old.bot_message_ids ∧
        newr.finished_at = coalesce fa old.finished_at ∧
        newr.score = coalesce sc old.score ∧
        newr.score_scale = coalesce ssc old.score_scale ∧
        newr.decision = coalesce d old.decision ∧
        newr.decision_reason = coalesce dr old.decision_reason ∧
        newr.picker_id = coalesce p old.picker_id ∧
        newr.reviewer_id = coalesce rv old.reviewer_id ∧
        newr.user_id = old.user_id ∧
        newr.username = old.username ∧
        newr.started_at = old.started_at) ∧
    (∀ l, ids = some l →
      (fetch_app (save_app db app_id u n t ids sa fa sc ssc d dr p rv)
          app_id).map FetchedApp.bot_message_ids = some l) ∧
    (alookup db app_id = none →
      alookup (save_app db app_id u n t ids sa fa sc ssc d dr p rv) app_id =
        some
          { user_id := u, username := n, started_at := sa, finished_at := fa,
            transcript := t, bot_message_ids := ids.map serializeIds,
            score := sc, score_scale := ssc, decision := d,
            decision_reason := dr, picker_id := p, reviewer_id := rv }) ∧
    (∀ q, q ≠ app_id →
      alookup (save_app db app_id u n t ids sa fa sc ssc d dr p rv) q =
        alookup db q) := by
  refine ⟨?_, ?_, ?_, ?_⟩
  · intro old hold
    refine ⟨updRec old t (ids.map serializeIds) fa sc ssc d dr p rv,
      lookup_save_update db app_id u n t ids sa fa sc ssc d dr p rv old hold,
      ?_⟩
    simp [updRec]
  · intro l hl
    subst hl
    exact fetch_bot_ids_after_save db app_id u n t l sa fa sc ssc d dr p rv
  · exact lookup_save_insert db app_id u n t ids sa fa sc ssc d dr p rv
  · exact fun q hq => lookup_save_ne db app_id u n t ids sa fa sc ssc d dr p
      rv q hq

/-- Witness for C8's amended claim at a concrete update: provided fields are
taken, the provided-but-ignored `started_at` and the identity fields keep
their stored values, and a provided empty id list fully replaces the stored
one. -/
theorem upsert_characterization_witness :
    ((alookup (save_app [("a1", sampleRec (some 3) none none)] "a1" "other"
        "bob" "T2" (some []) (some "S2") none none none (some "Approved") none
        none none) "a1").map AppRecord.started_at = some (some "S")) ∧
    ((alookup (save_app [("a1", sampleRec (some 3) none none)] "a1" "other"
        "bob" "T2" (some []) (some "S2") none none none (some "Approved") none
        none none) "a1").map AppRecord.user_id = some "u9") ∧
    ((alookup (save_app [("a1", sampleRec (some 3) none none)] "a1" "other"
        "bob" "T2" (some []) (some "S2") none none none (some "Approved") none
        none none) "a1").map AppRecord.decision = some (some "Approved")) ∧
    ((alookup (save_app [("a1", sampleRec (some 3) none none)] "a1" "other"
        "bob" "T2" (some []) (some "S2") none none none (some "Approved") none
        none none) "a1").map AppRecord.score = some (some 3)) ∧
    ((fetch_app (save_app [("a1", sampleRec (some 3) none none)] "a1" "other"
        "bob" "T2" (some []) (some "S2") none none none (some "Approved") none
        none none) "a1").map FetchedApp.bot_message_ids = some []) := by
  have h := upsert_characterization [("a1", sampleRec (some 3) none none)]
    "a1" "other" "bob" "T2" (some []) (some "S2") none none none
    (some "Approved") none none none
  obtain ⟨newr, hlook, hf1, hf2, hf3, hf4, hf5, hf6, hf7, hf8, hf9, hf10,
    hf11, hf12⟩ := h.1 (sampleRec (some 3) none none) rfl
  refine ⟨?_, ?_, ?_, ?_, h.2.1 [] rfl⟩
  · rw [hlook]
    simp [hf12, sampleRec]
  · rw [hlook]
    simp [hf10, sampleRec]
  · rw [hlook]
    simp [hf6, sampleRec, coalesce]
  · rw [hlook]
    simp [hf4, sampleRec, coalesce]

end GateKeeper
